import Mathlib

/-!
Verification development for the slide-optimizer repository.

The repository contains three near-duplicate implementations of the same
pipeline (rasterize a PDF's pages, pick a tiling grid, compose the page
images onto US-Letter output pages):

* `src/app.py`         — Flask app, `process_file` (lines 125-164)
* `src/main.py`        — Flask app with auto mode and a DPI clamp,
                         `process_file` (lines 145-193)
* `src/pdf_optimized_printer.py` — CLI script,
                         `optimize_pdf_for_printing` (lines 16-147)

The embedding below translates each variant's layout and composition logic
into executable Lean definitions.  Python float arithmetic is modelled as
exact rational arithmetic (`ℚ`); the float literal `1.2` in the printer's
auto-selection rule is modelled as `6/5`.  A run that ends in an uncaught
Python exception (IndexError on a zero-page source, KeyError on an
unsupported layout key in the printer variant) — or, for a non-positive
requested tile count, in the source's non-terminating while-loop — is
modelled as `none`; a completed run is `some` of a `RunOutput`.
-/

/-- US-Letter page width in points (`reportlab.lib.pagesizes.letter`). -/
def pageW : ℚ := 612

/-- US-Letter page height in points (`reportlab.lib.pagesizes.letter`). -/
def pageH : ℚ := 792

/-- Outer page margin in points; `margin = 36` in all three variants
(`app.py` line 143, `main.py` line 173, `pdf_optimized_printer.py` line 86). -/
def margin : ℚ := 36

/-- Inter-tile gap used by `app.py` line 143 and `main.py` line 173. -/
def gapMain : ℚ := 12

/-- Inter-tile gap used by `pdf_optimized_printer.py` line 87 (`gap = 10`). -/
def gapPrinter : ℚ := 10

/-- Tiling mode requested by the caller: `auto` or an explicit integer
count (`slides_per_page` after `int(...)` conversion). -/
inductive TilingMode where
  | auto : TilingMode
  | explicit (k : ℤ) : TilingMode
deriving Repr, DecidableEq

/-- The layout table `{1:(1,1), 2:(1,2), 4:(2,2), 6:(2,3)}` shared by
`app.py` line 140 and `main.py` line 170, as a partial lookup
(`none` = key absent). -/
def layoutsMain (s : ℤ) : Option (ℕ × ℕ) :=
  if s = 1 then some (1, 1)
  else if s = 2 then some (1, 2)
  else if s = 4 then some (2, 2)
  else if s = 6 then some (2, 3)
  else none

/-- The layout table of `pdf_optimized_printer.py` lines 75-81, which also
has the key `9 : (3, 3)`.  The source reads it with `layouts[slides_per_page]`
(line 83), so a missing key raises `KeyError`; here a missing key is `none`. -/
def layoutsPrinter (s : ℤ) : Option (ℕ × ℕ) :=
  if s = 1 then some (1, 1)
  else if s = 2 then some (1, 2)
  else if s = 4 then some (2, 2)
  else if s = 6 then some (2, 3)
  else if s = 9 then some (3, 3)
  else none

/-- Auto-mode tile count of `main.py` lines 160-165:
`is_landscape = img_w > img_h`, then `2 if is_landscape else 4`. -/
def autoSppMain (w h : ℚ) : ℤ :=
  if w > h then 2 else 4

/-- Auto-mode tile count of `pdf_optimized_printer.py` lines 62-69:
`if img_ratio > 1.2: 2  elif img_width < img_height: 2  else: 4`
(the ratio is `img_width / img_height`; `1.2` modelled as `6/5`). -/
def autoSppPrinter (w h : ℚ) : ℤ :=
  if w / h > 6 / 5 then 2
  else if w < h then 2
  else 4

/-- Tile count selected by `main.py` lines 163-167 from the requested mode
and the first image's pixel dimensions. -/
def sppOfMain : TilingMode → ℚ → ℚ → ℤ
  | .auto, w, h => autoSppMain w h
  | .explicit k, _, _ => k

/-- Tile count selected by `pdf_optimized_printer.py` lines 61-69. -/
def sppOfPrinter : TilingMode → ℚ → ℚ → ℤ
  | .auto, w, h => autoSppPrinter w h
  | .explicit k, _, _ => k

/-- The per-run grid geometry (`GridSpec` of the spec): grid shape,
cell size, and the uniform scaled tile size. -/
structure Geom where
  cols : ℕ
  rows : ℕ
  gap : ℚ
  cw : ℚ
  ch : ℚ
  sw : ℚ
  sh : ℚ
deriving Repr, DecidableEq

/-- Geometry computation shared (syntactically identically) by all three
variants, e.g. `main.py` lines 174-178:
`cw = (page_width - 2*margin - (cols-1)*gap) / cols`,
`ch = (page_height - 2*margin - (rows-1)*gap) / rows`,
`scale = min(cw/img_w, ch/img_h)`, `sw, sh = img_w*scale, img_h*scale`,
with `(w, h)` the FIRST rasterized image's pixel dimensions. -/
def geomOf (cols rows : ℕ) (gap w h : ℚ) : Geom :=
  let cw : ℚ := (pageW - 2 * margin - ((cols : ℚ) - 1) * gap) / (cols : ℚ)
  let ch : ℚ := (pageH - 2 * margin - ((rows : ℚ) - 1) * gap) / (rows : ℚ)
  let scale : ℚ := min (cw / w) (ch / h)
  { cols := cols, rows := rows, gap := gap, cw := cw, ch := ch,
    sw := w * scale, sh := h * scale }

/-- One drawn tile: output page index, slot `j` within the page, global
source-image index, the bottom-left position and size passed to
`drawImage`, and the rectangle passed to `rect` (the border). -/
structure Placed where
  page : ℕ
  slot : ℕ
  src : ℕ
  x : ℚ
  y : ℚ
  w : ℚ
  h : ℚ
  borderX : ℚ
  borderY : ℚ
  borderW : ℚ
  borderH : ℚ
deriving Repr, DecidableEq

/-- One iteration of the inner placement loop, e.g. `main.py` lines 185-190:
`col, row = j % cols, j // cols`;
`x = margin + col*(cw+gap) + (cw-sw)/2`;
`y = page_height - margin - (row+1)*ch - row*gap + (ch-sh)/2`;
`drawImage(..., x, y, width=sw, height=sh)`; `rect(x, y, sw, sh)`.
The same statements appear in `app.py` lines 156-161 and
`pdf_optimized_printer.py` lines 121-136. -/
def placeTile (g : Geom) (p j src : ℕ) : Placed :=
  let col : ℕ := j % g.cols
  let row : ℕ := j / g.cols
  let x : ℚ := margin + (col : ℚ) * (g.cw + g.gap) + (g.cw - g.sw) / 2
  let y : ℚ := pageH - margin - ((row : ℚ) + 1) * g.ch - (row : ℚ) * g.gap
      + (g.ch - g.sh) / 2
  { page := p, slot := j, src := src, x := x, y := y, w := g.sw, h := g.sh,
    borderX := x, borderY := y, borderW := g.sw, borderH := g.sh }

/-- The tiles of one output page: slots `j = 0 .. cnt-1`, drawing source
images `idx, idx+1, ...` (the inner `for j in range(s_p_p)` loop body). -/
def pageTiles (g : Geom) (p idx cnt : ℕ) : List Placed :=
  (List.range cnt).map (fun j => placeTile g p j (idx + j))

/-- The composer's outer `while idx < total_slides` loop
(`main.py` lines 181-192, `app.py` lines 152-163,
`pdf_optimized_printer.py` lines 111-141): each iteration emits one output
page holding `min spp rem` tiles and advances `idx`.  Every iteration
places at least one image when `spp ≥ 1`, so the loop runs at most as many
iterations as there are images; the `fuel` argument carries that bound
(`fuel = rem` always suffices, see `composeLoop_eq`). -/
def composeLoop (g : Geom) (spp : ℕ) : ℕ → ℕ → ℕ → ℕ → List (List Placed)
  | 0, _, _, _ => []
  | _ + 1, _, _, 0 => []
  | fuel + 1, p, idx, r + 1 =>
      pageTiles g p idx (min spp (r + 1)) ::
        composeLoop g spp fuel (p + 1) (idx + min spp (r + 1))
          (r + 1 - min spp (r + 1))

/-- The full composition of `n` source images with group size `spp`. -/
def composeAll (g : Geom) (spp n : ℕ) : List (List Placed) :=
  composeLoop g spp n 0 0 n

/-- A completed run: the group size used, the rasterization zoom factor,
the grid geometry, and the finalized output pages. -/
structure RunOutput where
  spp : ℕ
  zoom : ℚ
  geom : Geom
  pages : List (List Placed)
deriving Repr, DecidableEq

/-- The pipeline of `main.py` `process_file` (lines 145-193).  Inputs are
the rasterized images' pixel dimensions (one pair per source page), the
requested mode, and the submitted dpi.  `dpi = min(int(dpi), 300)` is
applied first (line 146) and `zoom = dpi / 72` (line 151).  A zero-page
source hits `images[0].size` (line 159) and raises IndexError (`none`);
a non-positive tile count makes the while-loop diverge (`none`). -/
def mainProcess (imgs : List (ℚ × ℚ)) (mode : TilingMode) (dpi : ℤ) :
    Option RunOutput :=
  match imgs with
  | [] => none
  | (w, h) :: rest =>
    let spp : ℤ := sppOfMain mode w h
    let cr := (layoutsMain spp).getD (2, 2)
    let g := geomOf cr.1 cr.2 gapMain w h
    if 0 < spp then
      some { spp := spp.toNat, zoom := ((min dpi 300 : ℤ) : ℚ) / 72,
             geom := g, pages := composeAll g spp.toNat (rest.length + 1) }
    else none

/-- The pipeline of `app.py` `process_file` (lines 125-164).  No auto mode
and no dpi clamp: `zoom = dpi / 72` with the submitted value (line 129).
A zero-page source hits `images[0].size` (line 147) and raises IndexError. -/
def appProcess (imgs : List (ℚ × ℚ)) (spp : ℤ) (dpi : ℤ) :
    Option RunOutput :=
  match imgs with
  | [] => none
  | (w, h) :: rest =>
    let cr := (layoutsMain spp).getD (2, 2)
    let g := geomOf cr.1 cr.2 gapMain w h
    if 0 < spp then
      some { spp := spp.toNat, zoom := (dpi : ℚ) / 72,
             geom := g, pages := composeAll g spp.toNat (rest.length + 1) }
    else none

/-- The pipeline of `pdf_optimized_printer.py` `optimize_pdf_for_printing`
(lines 16-144).  No dpi clamp (`zoom = dpi / 72`, line 35); a zero-page
source hits `images[0]` (line 54) and raises IndexError; an explicit count
missing from its layout table raises KeyError at `layouts[slides_per_page]`
(line 83) — both modelled as `none`. -/
def printerProcess (imgs : List (ℚ × ℚ)) (mode : TilingMode) (dpi : ℤ) :
    Option RunOutput :=
  match imgs with
  | [] => none
  | (w, h) :: rest =>
    let spp : ℤ := sppOfPrinter mode w h
    match layoutsPrinter spp with
    | none => none
    | some cr =>
      let g := geomOf cr.1 cr.2 gapPrinter w h
      if 0 < spp then
        some { spp := spp.toNat, zoom := (dpi : ℚ) / 72,
               geom := g, pages := composeAll g spp.toNat (rest.length + 1) }
      else none

example : (layoutsMain 4).getD (2, 2) = (2, 2) := by decide

example : (layoutsMain 9).getD (2, 2) = (2, 2) := by decide

example : layoutsPrinter 9 = some (3, 3) := by decide

example :
    ((geomOf 1 1 gapMain 4 3).cw, (geomOf 1 1 gapMain 4 3).ch,
     (geomOf 1 1 gapMain 4 3).sw, (geomOf 1 1 gapMain 4 3).sh) =
    (540, 720, 540, 405) := by
  norm_num [geomOf, pageW, pageH, margin, gapMain, min_def]

/-- Key structural fact about the composer loop: with a positive group size
`spp` and enough fuel, the output is one page for each index
`i < ceil(rem / spp)`, page `i` holding `min spp (rem - i*spp)` tiles and
starting at source image `idx + i*spp`. -/
theorem composeLoop_eq (g : Geom) (spp : ℕ) (hspp : 1 ≤ spp) :
    ∀ fuel rem p idx, rem ≤ fuel →
      composeLoop g spp fuel p idx rem =
        (List.range ((rem + spp - 1) / spp)).map
          (fun i => pageTiles g (p + i) (idx + i * spp) (min spp (rem - i * spp))) := by
  intro fuel
  induction fuel with
  | zero =>
    intro rem p idx hle
    obtain rfl : rem = 0 := by omega
    have h0 : (spp - 1) / spp = 0 := Nat.div_eq_of_lt (by omega)
    simp [composeLoop, h0]
  | succ fuel ih =>
    intro rem p idx hle
    match rem with
    | 0 =>
      have h0 : (spp - 1) / spp = 0 := Nat.div_eq_of_lt (by omega)
      simp [composeLoop, h0]
    | r + 1 =>
      rw [composeLoop]
      rcases le_or_lt (r + 1) spp with hsmall | hbig
      · -- last page: `min spp (r+1) = r+1`, nothing remains afterwards
        have hrem0 : r + 1 - min spp (r + 1) = 0 := by omega
        have hcnt : (r + 1 + spp - 1) / spp = 1 := by
          have h1 : r + 1 + spp - 1 = r + spp := by omega
          rw [h1, Nat.add_div_right _ (by omega)]
          rw [Nat.div_eq_of_lt (by omega)]
        rw [hrem0]
        have hz : composeLoop g spp fuel (p + 1) (idx + min spp (r + 1)) 0 = [] := by
          cases fuel <;> simp [composeLoop]
        rw [hz, hcnt]
        simp [List.range_succ]
      · -- a full page of `spp` tiles, then the loop continues
        have hmin : min spp (r + 1) = spp := by omega
        have hrem : r + 1 - min spp (r + 1) = r + 1 - spp := by omega
        have hcnt : (r + 1 + spp - 1) / spp = (r + 1 - spp + spp - 1) / spp + 1 := by
          have h1 : r + 1 + spp - 1 = (r + 1 - spp + spp - 1) + spp := by omega
          rw [h1, Nat.add_div_right _ (by omega)]
        rw [hrem, ih _ _ _ (by omega), hcnt, List.range_succ_eq_map]
        rw [List.map_cons, List.map_map]
        congr 1
        · simp [hmin]
        · apply List.map_congr_left
          intro i _
          simp only [Function.comp, hmin, Nat.succ_eq_add_one]
          have e1 : p + 1 + i = p + (i + 1) := by omega
          have e2 : idx + spp + i * spp = idx + (i + 1) * spp := by ring
          have e3 : r + 1 - spp - i * spp = r + 1 - (i + 1) * spp := by
            rw [show (i + 1) * spp = spp + i * spp from by ring, ← Nat.sub_sub]
          rw [e1, e2, e3]

theorem composeAll_eq (g : Geom) (spp n : ℕ) (hspp : 1 ≤ spp) :
    composeAll g spp n =
      (List.range ((n + spp - 1) / spp)).map
        (fun i => pageTiles g i (i * spp) (min spp (n - i * spp))) := by
  rw [composeAll, composeLoop_eq g spp hspp n n 0 0 le_rfl]
  simp

theorem composeAll_length (g : Geom) (spp n : ℕ) (hspp : 1 ≤ spp) :
    (composeAll g spp n).length = (n + spp - 1) / spp := by
  rw [composeAll_eq g spp n hspp]
  simp

theorem composeAll_get (g : Geom) (spp n : ℕ) (hspp : 1 ≤ spp)
    (i : ℕ) (hi : i < (composeAll g spp n).length) :
    (composeAll g spp n).get ⟨i, hi⟩ =
      pageTiles g i (i * spp) (min spp (n - i * spp)) := by
  rw [List.get_of_eq (composeAll_eq g spp n hspp)]
  simp

theorem pageTiles_length (g : Geom) (p idx cnt : ℕ) :
    (pageTiles g p idx cnt).length = cnt := by
  simp [pageTiles]

theorem pageTiles_get (g : Geom) (p idx cnt : ℕ) (j : ℕ)
    (hj : j < (pageTiles g p idx cnt).length) :
    (pageTiles g p idx cnt).get ⟨j, hj⟩ = placeTile g p j (idx + j) := by
  simp [pageTiles]


theorem composeAll_full_page (g : Geom) (spp n : ℕ) (hspp : 1 ≤ spp)
    (i : ℕ) (hi : i + 1 < (composeAll g spp n).length) :
    ((composeAll g spp n).get ⟨i, Nat.lt_of_succ_lt hi⟩).length = spp := by
  rw [composeAll_get g spp n hspp, pageTiles_length]
  rw [composeAll_length g spp n hspp] at hi
  have h2 : (i + 2) * spp ≤ n + spp - 1 :=
    (Nat.le_div_iff_mul_le (by omega : 0 < spp)).mp (by omega)
  rw [show (i + 2) * spp = i * spp + spp + spp from by ring] at h2
  set a := i * spp
  omega

/-- The source-image indices drawn by one output page, in order. -/
theorem pageTiles_srcs (g : Geom) (p idx cnt : ℕ) :
    (pageTiles g p idx cnt).map (fun t => t.src) = List.range' idx cnt := by
  rw [List.range'_eq_map_range]
  rw [pageTiles, List.map_map]
  apply List.map_congr_left
  intro j _
  simp [placeTile]

/-- The composer consumes source images strictly in order. -/
theorem composeLoop_srcs (g : Geom) (spp : ℕ) (hspp : 1 ≤ spp) :
    ∀ fuel rem p idx, rem ≤ fuel →
      (composeLoop g spp fuel p idx rem).flatten.map (fun t => t.src) =
        List.range' idx rem := by
  intro fuel
  induction fuel with
  | zero =>
    intro rem p idx hle
    obtain rfl : rem = 0 := by omega
    simp [composeLoop]
  | succ fuel ih =>
    intro rem p idx hle
    match rem with
    | 0 => simp [composeLoop]
    | r + 1 =>
      rw [composeLoop]
      rw [List.flatten_cons, List.map_append, pageTiles_srcs, ih _ _ _ (by omega)]
      have happ := List.range'_append idx (min spp (r + 1))
        (r + 1 - min spp (r + 1)) 1
      rw [one_mul] at happ
      rw [happ]
      congr 1
      omega

theorem composeAll_srcs (g : Geom) (spp n : ℕ) (hspp : 1 ≤ spp) :
    (composeAll g spp n).flatten.map (fun t => t.src) = List.range n := by
  rw [composeAll, composeLoop_srcs g spp hspp n n 0 0 le_rfl,
    List.range_eq_range']

/-- Every tile the composer ever emits is a `placeTile` at a slot below the
group size. -/
theorem composeAll_mem (g : Geom) (spp n : ℕ) (hspp : 1 ≤ spp) (t : Placed)
    (ht : t ∈ (composeAll g spp n).flatten) :
    ∃ p j src, j < spp ∧ t = placeTile g p j src := by
  rw [composeAll_eq g spp n hspp, List.mem_flatten] at ht
  obtain ⟨pg, hpg, htpg⟩ := ht
  rw [List.mem_map] at hpg
  obtain ⟨i, _, rfl⟩ := hpg
  rw [pageTiles, List.mem_map] at htpg
  obtain ⟨j, hj, rfl⟩ := htpg
  rw [List.mem_range] at hj
  exact ⟨i, j, i * spp + j, lt_of_lt_of_le hj (min_le_left _ _), rfl⟩

theorem geomOf_cols (cols rows : ℕ) (gap w h : ℚ) :
    (geomOf cols rows gap w h).cols = cols := rfl

theorem geomOf_rows (cols rows : ℕ) (gap w h : ℚ) :
    (geomOf cols rows gap w h).rows = rows := rfl

theorem geomOf_gap (cols rows : ℕ) (gap w h : ℚ) :
    (geomOf cols rows gap w h).gap = gap := rfl

theorem geomOf_cw (cols rows : ℕ) (gap w h : ℚ) :
    (geomOf cols rows gap w h).cw =
      (pageW - 2 * margin - ((cols : ℚ) - 1) * gap) / (cols : ℚ) := rfl

theorem geomOf_ch (cols rows : ℕ) (gap w h : ℚ) :
    (geomOf cols rows gap w h).ch =
      (pageH - 2 * margin - ((rows : ℚ) - 1) * gap) / (rows : ℚ) := rfl

theorem geomOf_sw (cols rows : ℕ) (gap w h : ℚ) :
    (geomOf cols rows gap w h).sw =
      w * min ((geomOf cols rows gap w h).cw / w)
        ((geomOf cols rows gap w h).ch / h) := rfl

theorem geomOf_sh (cols rows : ℕ) (gap w h : ℚ) :
    (geomOf cols rows gap w h).sh =
      h * min ((geomOf cols rows gap w h).cw / w)
        ((geomOf cols rows gap w h).ch / h) := rfl

/-- The uniform scale-to-fit never exceeds the cell width. -/
theorem scale_fit_w (cw ch w h : ℚ) (hw : 0 < w) :
    w * min (cw / w) (ch / h) ≤ cw := by
  calc w * min (cw / w) (ch / h) ≤ w * (cw / w) :=
        mul_le_mul_of_nonneg_left (min_le_left _ _) hw.le
    _ = cw := mul_div_cancel₀ _ (ne_of_gt hw)

/-- The uniform scale-to-fit never exceeds the cell height. -/
theorem scale_fit_h (cw ch w h : ℚ) (hh : 0 < h) :
    h * min (cw / w) (ch / h) ≤ ch := by
  calc h * min (cw / w) (ch / h) ≤ h * (ch / h) :=
        mul_le_mul_of_nonneg_left (min_le_right _ _) hh.le
    _ = ch := mul_div_cancel₀ _ (ne_of_gt hh)

theorem geomOf_scaled_le (cols rows : ℕ) (gap w h : ℚ)
    (hw : 0 < w) (hh : 0 < h) :
    (geomOf cols rows gap w h).sw ≤ (geomOf cols rows gap w h).cw ∧
    (geomOf cols rows gap w h).sh ≤ (geomOf cols rows gap w h).ch := by
  constructor
  · rw [geomOf_sw]
    exact scale_fit_w _ _ _ _ hw
  · rw [geomOf_sh]
    exact scale_fit_h _ _ _ _ hh

/-- Inversion principle for a completed `main.py` run. -/
theorem mainProcess_some {imgs : List (ℚ × ℚ)} {mode : TilingMode}
    {dpi : ℤ} {out : RunOutput} (H : mainProcess imgs mode dpi = some out) :
    ∃ w h rest, imgs = (w, h) :: rest ∧ 0 < sppOfMain mode w h ∧
      out.spp = (sppOfMain mode w h).toNat ∧
      out.zoom = ((min dpi 300 : ℤ) : ℚ) / 72 ∧
      out.geom = geomOf ((layoutsMain (sppOfMain mode w h)).getD (2, 2)).1
        ((layoutsMain (sppOfMain mode w h)).getD (2, 2)).2 gapMain w h ∧
      out.pages = composeAll out.geom out.spp (rest.length + 1) := by
  match imgs with
  | [] => simp [mainProcess] at H
  | (w, h) :: rest =>
    refine ⟨w, h, rest, rfl, ?_⟩
    simp only [mainProcess] at H
    split at H
    · rename_i hs
      obtain rfl : out = _ := (Option.some.inj H).symm
      exact ⟨hs, rfl, rfl, rfl, rfl⟩
    · exact absurd H (by simp)

/-- Inversion principle for a completed `app.py` run. -/
theorem appProcess_some {imgs : List (ℚ × ℚ)} {spp : ℤ}
    {dpi : ℤ} {out : RunOutput} (H : appProcess imgs spp dpi = some out) :
    ∃ w h rest, imgs = (w, h) :: rest ∧ 0 < spp ∧
      out.spp = spp.toNat ∧
      out.zoom = (dpi : ℚ) / 72 ∧
      out.geom = geomOf ((layoutsMain spp).getD (2, 2)).1
        ((layoutsMain spp).getD (2, 2)).2 gapMain w h ∧
      out.pages = composeAll out.geom out.spp (rest.length + 1) := by
  match imgs with
  | [] => simp [appProcess] at H
  | (w, h) :: rest =>
    refine ⟨w, h, rest, rfl, ?_⟩
    simp only [appProcess] at H
    split at H
    · rename_i hs
      obtain rfl : out = _ := (Option.some.inj H).symm
      exact ⟨hs, rfl, rfl, rfl, rfl⟩
    · exact absurd H (by simp)

/-- Inversion principle for a completed `pdf_optimized_printer.py` run. -/
theorem printerProcess_some {imgs : List (ℚ × ℚ)} {mode : TilingMode}
    {dpi : ℤ} {out : RunOutput}
    (H : printerProcess imgs mode dpi = some out) :
    ∃ w h rest cr, imgs = (w, h) :: rest ∧ 0 < sppOfPrinter mode w h ∧
      layoutsPrinter (sppOfPrinter mode w h) = some cr ∧
      out.spp = (sppOfPrinter mode w h).toNat ∧
      out.zoom = (dpi : ℚ) / 72 ∧
      out.geom = geomOf cr.1 cr.2 gapPrinter w h ∧
      out.pages = composeAll out.geom out.spp (rest.length + 1) := by
  match imgs with
  | [] => simp [printerProcess] at H
  | (w, h) :: rest =>
    simp only [printerProcess] at H
    split at H
    · exact absurd H (by simp)
    · rename_i cr hcr
      split at H
      · rename_i hs
        obtain rfl : out = _ := (Option.some.inj H).symm
        exact ⟨w, h, rest, cr, rfl, hs, hcr, rfl, rfl, rfl, rfl⟩
      · exact absurd H (by simp)

theorem placeTile_x (g : Geom) (p j src : ℕ) :
    (placeTile g p j src).x =
      margin + ((j % g.cols : ℕ) : ℚ) * (g.cw + g.gap) + (g.cw - g.sw) / 2 :=
  rfl

theorem placeTile_y (g : Geom) (p j src : ℕ) :
    (placeTile g p j src).y =
      pageH - margin - (((j / g.cols : ℕ) : ℚ) + 1) * g.ch -
        ((j / g.cols : ℕ) : ℚ) * g.gap + (g.ch - g.sh) / 2 :=
  rfl

theorem placeTile_w (g : Geom) (p j src : ℕ) :
    (placeTile g p j src).w = g.sw := rfl

theorem placeTile_h (g : Geom) (p j src : ℕ) :
    (placeTile g p j src).h = g.sh := rfl

theorem placeTile_border (g : Geom) (p j src : ℕ) :
    (placeTile g p j src).borderX = (placeTile g p j src).x ∧
    (placeTile g p j src).borderY = (placeTile g p j src).y ∧
    (placeTile g p j src).borderW = (placeTile g p j src).w ∧
    (placeTile g p j src).borderH = (placeTile g p j src).h :=
  ⟨rfl, rfl, rfl, rfl⟩

/-- Core geometric invariant: on any grid whose shape actually fits the
page (non-negative available space) and whose slot index is within the
`cols * rows` grid, the placed tile lies inside the margin box. -/
theorem placeTile_in_margins (cols rows : ℕ) (gap w h : ℚ) (p j src : ℕ)
    (hc : 1 ≤ cols) (hr : 1 ≤ rows) (hgap : 0 ≤ gap)
    (hW : 0 ≤ pageW - 2 * margin - ((cols : ℚ) - 1) * gap)
    (hH : 0 ≤ pageH - 2 * margin - ((rows : ℚ) - 1) * gap)
    (hw : 0 < w) (hh : 0 < h) (hj : j < cols * rows) :
    margin ≤ (placeTile (geomOf cols rows gap w h) p j src).x ∧
    (placeTile (geomOf cols rows gap w h) p j src).x +
      (placeTile (geomOf cols rows gap w h) p j src).w ≤ pageW - margin ∧
    margin ≤ (placeTile (geomOf cols rows gap w h) p j src).y ∧
    (placeTile (geomOf cols rows gap w h) p j src).y +
      (placeTile (geomOf cols rows gap w h) p j src).h ≤ pageH - margin := by
  set g := geomOf cols rows gap w h with hg
  have hcolsQ : (0 : ℚ) < (cols : ℚ) := by exact_mod_cast hc
  have hrowsQ : (0 : ℚ) < (rows : ℚ) := by exact_mod_cast hr
  have hcw0 : 0 ≤ g.cw := by
    rw [hg, geomOf_cw]
    exact div_nonneg hW hcolsQ.le
  have hch0 : 0 ≤ g.ch := by
    rw [hg, geomOf_ch]
    exact div_nonneg hH hrowsQ.le
  have hswle : g.sw ≤ g.cw := (geomOf_scaled_le cols rows gap w h hw hh).1
  have hshle : g.sh ≤ g.ch := (geomOf_scaled_le cols rows gap w h hw hh).2
  have hgcols : g.cols = cols := by rw [hg, geomOf_cols]
  have hggap : g.gap = gap := by rw [hg, geomOf_gap]
  have hidW : (cols : ℚ) * g.cw = pageW - 2 * margin - ((cols : ℚ) - 1) * gap := by
    rw [hg, geomOf_cw]
    exact mul_div_cancel₀ _ (ne_of_gt hcolsQ)
  have hidH : (rows : ℚ) * g.ch = pageH - 2 * margin - ((rows : ℚ) - 1) * gap := by
    rw [hg, geomOf_ch]
    exact mul_div_cancel₀ _ (ne_of_gt hrowsQ)
  have hcolN : j % g.cols + 1 ≤ cols := by
    rw [hgcols]
    exact Nat.mod_lt j (by omega)
  have hrowN : j / g.cols + 1 ≤ rows := by
    rw [hgcols]
    exact (Nat.div_lt_iff_lt_mul (by omega : 0 < cols)).mpr
      (by rw [Nat.mul_comm] at hj; exact hj)
  have hcolQ : ((j % g.cols : ℕ) : ℚ) ≤ (cols : ℚ) - 1 := by
    have : ((j % g.cols : ℕ) : ℚ) + 1 ≤ (cols : ℚ) := by exact_mod_cast hcolN
    linarith
  have hrowQ : ((j / g.cols : ℕ) : ℚ) ≤ (rows : ℚ) - 1 := by
    have : ((j / g.cols : ℕ) : ℚ) + 1 ≤ (rows : ℚ) := by exact_mod_cast hrowN
    linarith
  have hcol0 : (0 : ℚ) ≤ ((j % g.cols : ℕ) : ℚ) := Nat.cast_nonneg _
  have hrow0 : (0 : ℚ) ≤ ((j / g.cols : ℕ) : ℚ) := Nat.cast_nonneg _
  rw [placeTile_x, placeTile_y, placeTile_w, placeTile_h, hggap]
  refine ⟨?_, ?_, ?_, ?_⟩
  · have k5 : 0 ≤ ((j % g.cols : ℕ) : ℚ) * (g.cw + gap) :=
      mul_nonneg hcol0 (by linarith)
    linarith
  · have key1 : ((j % g.cols : ℕ) : ℚ) * (g.cw + gap) ≤
        ((cols : ℚ) - 1) * (g.cw + gap) :=
      mul_le_mul_of_nonneg_right hcolQ (by linarith)
    have hm : margin = 36 := rfl
    have hpw : pageW = 612 := rfl
    nlinarith [key1, hidW, hswle, hcw0]
  · have k1 : 0 ≤ ((rows : ℚ) - 1 - ((j / g.cols : ℕ) : ℚ)) * g.ch :=
      mul_nonneg (by linarith) hch0
    have k2 : 0 ≤ ((rows : ℚ) - 1 - ((j / g.cols : ℕ) : ℚ)) * gap :=
      mul_nonneg (by linarith) hgap
    nlinarith [k1, k2, hidH, hshle]
  · have k3 : 0 ≤ ((j / g.cols : ℕ) : ℚ) * g.ch := mul_nonneg hrow0 hch0
    have k4 : 0 ≤ ((j / g.cols : ℕ) : ℚ) * gap := mul_nonneg hrow0 hgap
    linarith

/-- A supported key of the `app.py`/`main.py` layout table multiplies out
to its own tile count, with positive grid dimensions. -/
theorem layoutsMain_spp {s : ℤ} {cr : ℕ × ℕ} (h : layoutsMain s = some cr) :
    s.toNat = cr.1 * cr.2 ∧ 1 ≤ cr.1 ∧ 1 ≤ cr.2 ∧ 0 < s := by
  unfold layoutsMain at h
  split_ifs at h with h1 h2 h3 h4 <;>
    (obtain rfl : _ = cr := Option.some.inj h; subst_vars; decide)

/-- A supported key of the printer layout table multiplies out to its own
tile count, with positive grid dimensions. -/
theorem layoutsPrinter_spp {s : ℤ} {cr : ℕ × ℕ}
    (h : layoutsPrinter s = some cr) :
    s.toNat = cr.1 * cr.2 ∧ 1 ≤ cr.1 ∧ 1 ≤ cr.2 ∧ 0 < s := by
  unfold layoutsPrinter at h
  split_ifs at h with h1 h2 h3 h4 h5 <;>
    (obtain rfl : _ = cr := Option.some.inj h; subst_vars; decide)

/-- Every grid shape of the `app.py`/`main.py` table (and the 2×2 default)
leaves non-negative available space on the US-Letter page with gap 12. -/
theorem layoutsMain_fits {s : ℤ} {cr : ℕ × ℕ} (h : layoutsMain s = some cr) :
    0 ≤ pageW - 2 * margin - ((cr.1 : ℚ) - 1) * gapMain ∧
    0 ≤ pageH - 2 * margin - ((cr.2 : ℚ) - 1) * gapMain := by
  unfold layoutsMain at h
  split_ifs at h <;>
    (obtain rfl : _ = cr := Option.some.inj h;
     constructor <;> norm_num [pageW, pageH, margin, gapMain])

/-- Every grid shape of the printer table leaves non-negative available
space on the US-Letter page with gap 10. -/
theorem layoutsPrinter_fits {s : ℤ} {cr : ℕ × ℕ}
    (h : layoutsPrinter s = some cr) :
    0 ≤ pageW - 2 * margin - ((cr.1 : ℚ) - 1) * gapPrinter ∧
    0 ≤ pageH - 2 * margin - ((cr.2 : ℚ) - 1) * gapPrinter := by
  unfold layoutsPrinter at h
  split_ifs at h <;>
    (obtain rfl : _ = cr := Option.some.inj h;
     constructor <;> norm_num [pageW, pageH, margin, gapPrinter])

/-- C1, counterexample.  On a zero-page source the `app.py` pipeline does
not complete at all: `images[0].size` raises IndexError, so there is no
finalized output document (with zero pages or otherwise). -/
theorem c1_counterexample :
    ¬ ∃ out : RunOutput, appProcess [] 4 200 = some out ∧ out.pages = [] := by
  rintro ⟨out, hout, -⟩
  simp [appProcess] at hout

/-- C1, amended.  A zero-page source makes every variant of the pipeline
fail (IndexError at the first-image access) instead of producing a sealed
zero-page output document: all three runs yield no output. -/
theorem c1_zero_page_raises :
    ∀ (mode : TilingMode) (s dpi : ℤ),
      mainProcess [] mode dpi = none ∧
      appProcess [] s dpi = none ∧
      printerProcess [] mode dpi = none := by
  intro mode s dpi
  exact ⟨rfl, rfl, rfl⟩

/-- C3, counterexample.  In the printer variant an unsupported explicit
count does NOT fall back to the 2×2 shape: the table lookup has no
default, so the run dies with a KeyError (no output at all). -/
theorem c3_counterexample :
    printerProcess [((4 : ℚ), (3 : ℚ))] (.explicit 3) 200 = none ∧
    layoutsPrinter 3 = none := by
  exact ⟨rfl, rfl⟩

/-- C3, amended.  In `app.py`/`main.py` the table is
`{1:(1,1), 2:(1,2), 4:(2,2), 6:(2,3)}` and every other explicit count
(including 9, absent from this table) yields the 2×2 default without
error; in `pdf_optimized_printer.py` the table additionally maps 9 to 3×3
but an unsupported count raises KeyError instead of defaulting. -/
theorem c3_layout_resolution :
    (layoutsMain 1 = some (1, 1) ∧ layoutsMain 2 = some (1, 2) ∧
     layoutsMain 4 = some (2, 2) ∧ layoutsMain 6 = some (2, 3)) ∧
    (∀ s : ℤ, s ≠ 1 → s ≠ 2 → s ≠ 4 → s ≠ 6 →
      (layoutsMain s).getD (2, 2) = (2, 2)) ∧
    (layoutsMain 9).getD (2, 2) = (2, 2) ∧
    (layoutsPrinter 1 = some (1, 1) ∧ layoutsPrinter 2 = some (1, 2) ∧
     layoutsPrinter 4 = some (2, 2) ∧ layoutsPrinter 6 = some (2, 3) ∧
     layoutsPrinter 9 = some (3, 3)) ∧
    (∀ s : ℤ, s ≠ 1 → s ≠ 2 → s ≠ 4 → s ≠ 6 → s ≠ 9 →
      layoutsPrinter s = none) ∧
    (∀ (w h : ℚ) (rest : List (ℚ × ℚ)) (dpi : ℤ),
      printerProcess ((w, h) :: rest) (.explicit 3) dpi = none) := by
  refine ⟨by decide, ?_, by decide, by decide, ?_, ?_⟩
  · intro s h1 h2 h4 h6
    simp [layoutsMain, h1, h2, h4, h6]
  · intro s h1 h2 h4 h6 h9
    simp [layoutsPrinter, h1, h2, h4, h6, h9]
  · intro w h rest dpi
    rfl

/-- C3, witness for the amended theorem: the unsupported count 7 defaults
to 2×2 in `app.py`/`main.py` and raises (no table entry) in the printer. -/
theorem c3_layout_resolution_witness :
    ((7 : ℤ) ≠ 1 ∧ (7 : ℤ) ≠ 2 ∧ (7 : ℤ) ≠ 4 ∧ (7 : ℤ) ≠ 6 ∧ (7 : ℤ) ≠ 9) ∧
    (layoutsMain 7).getD (2, 2) = (2, 2) ∧
    layoutsPrinter 7 = none ∧
    printerProcess [((4 : ℚ), (3 : ℚ))] (.explicit 3) 200 = none := by
  refine ⟨by decide, ?_, ?_, ?_⟩
  · exact c3_layout_resolution.2.1 7 (by decide) (by decide) (by decide)
      (by decide)
  · exact c3_layout_resolution.2.2.2.2.1 7 (by decide) (by decide)
      (by decide) (by decide) (by decide)
  · exact c3_layout_resolution.2.2.2.2.2 4 3 [] 200

/-- C4, counterexample.  A portrait first image (100×200) in the printer
variant's auto mode selects 2 tiles per page, not the 4 the claim requires
for every non-landscape image. -/
theorem c4_counterexample :
    (printerProcess [((100 : ℚ), 200)] .auto 200).map (fun o => o.spp) =
      some 2 ∧ (2 : ℕ) ≠ 4 := by
  constructor
  · norm_num [printerProcess, sppOfPrinter, autoSppPrinter, layoutsPrinter]
    rfl
  · decide

/-- C4, amended.  The tile count is chosen once per run from the first
image, but the portrait case differs by variant: `main.py` picks 2 only
for `w > h` and 4 otherwise (portrait and square included); the printer
picks 2 both for ratio > 1.2 and for portrait (`w < h`), and 4 only for
square-to-mildly-landscape images (`h ≤ w ≤ 1.2·h`). -/
theorem c4_auto_selection :
    (∀ w h : ℚ, h < w → autoSppMain w h = 2) ∧
    (∀ w h : ℚ, w ≤ h → autoSppMain w h = 4) ∧
    (∀ w h : ℚ, 0 < h → 6 / 5 * h < w → autoSppPrinter w h = 2) ∧
    (∀ w h : ℚ, w < h → autoSppPrinter w h = 2) ∧
    (∀ w h : ℚ, 0 < h → h ≤ w → w ≤ 6 / 5 * h → autoSppPrinter w h = 4) ∧
    (∀ (w h : ℚ) (rest : List (ℚ × ℚ)) (dpi : ℤ) (out : RunOutput),
      mainProcess ((w, h) :: rest) .auto dpi = some out →
      out.spp = (autoSppMain w h).toNat) ∧
    (∀ (w h : ℚ) (rest : List (ℚ × ℚ)) (dpi : ℤ) (out : RunOutput),
      printerProcess ((w, h) :: rest) .auto dpi = some out →
      out.spp = (autoSppPrinter w h).toNat) := by
  refine ⟨?_, ?_, ?_, ?_, ?_, ?_, ?_⟩
  · intro w h hwh
    simp [autoSppMain, hwh]
  · intro w h hle
    rw [autoSppMain, if_neg (not_lt.mpr hle)]
  · intro w h hh hlt
    have hgt : w / h > 6 / 5 := (lt_div_iff₀ hh).mpr (by linarith)
    simp [autoSppPrinter, hgt]
  · intro w h hwh
    by_cases h15 : w / h > 6 / 5
    · simp [autoSppPrinter, h15]
    · simp [autoSppPrinter, h15, hwh]
  · intro w h hh hge hle
    have h1 : ¬ (w / h > 6 / 5) :=
      not_lt.mpr ((div_le_iff₀ hh).mpr (by linarith))
    have h2 : ¬ (w < h) := not_lt.mpr hge
    simp [autoSppPrinter, h1, h2]
  · intro w h rest dpi out H
    obtain ⟨w', h', rest', heq, -, hspp, -, -, -⟩ := mainProcess_some H
    cases heq
    exact hspp
  · intro w h rest dpi out H
    obtain ⟨w', h', rest', cr, heq, -, -, hspp, -, -, -⟩ :=
      printerProcess_some H
    cases heq
    exact hspp

/-- Run output of a concrete landscape auto-mode `main.py` run, used by
the C4 witness. -/
def c4outMain : RunOutput :=
  (mainProcess [((4 : ℚ), 3)] .auto 200).getD ⟨0, 0, ⟨0, 0, 0, 0, 0, 0, 0⟩, []⟩

/-- C4, witness: the amended theorem applied at concrete inputs
(landscape 4×3 for `main.py`, portrait 1×2 and square 1×1 for the
printer rule, plus a completed auto run). -/
theorem c4_auto_selection_witness :
    ((3 : ℚ) < 4 ∧ autoSppMain 4 3 = 2) ∧
    ((1 : ℚ) < 2 ∧ autoSppPrinter 1 2 = 2) ∧
    ((0 : ℚ) < 1 ∧ (1 : ℚ) ≤ 1 ∧ (1 : ℚ) ≤ 6 / 5 * 1 ∧
      autoSppPrinter 1 1 = 4) ∧
    (mainProcess [((4 : ℚ), 3)] .auto 200 = some c4outMain ∧
      c4outMain.spp = (autoSppMain 4 3).toNat) := by
  have hsome : mainProcess [((4 : ℚ), 3)] .auto 200 = some c4outMain := by
    norm_num [c4outMain, mainProcess, sppOfMain, autoSppMain, layoutsMain]
  refine ⟨⟨by norm_num, c4_auto_selection.1 4 3 (by norm_num)⟩,
          ⟨by norm_num, c4_auto_selection.2.2.2.1 1 2 (by norm_num)⟩,
          ⟨by norm_num, by norm_num, by norm_num,
            c4_auto_selection.2.2.2.2.1 1 1 (by norm_num) (by norm_num)
              (by norm_num)⟩,
          hsome, c4_auto_selection.2.2.2.2.2.1 4 3 [] 200 c4outMain hsome⟩

/-- C5, counterexample.  `app.py` applies no dpi clamp: submitting
dpi = 600 makes the run rasterize at zoom 600/72, which exceeds 300/72. -/
theorem c5_counterexample :
    (appProcess [((4 : ℚ), 3)] 4 600).map (fun o => o.zoom) =
      some ((600 : ℚ) / 72) ∧
    ¬ ((600 : ℚ) / 72 ≤ 300 / 72) := by
  constructor
  · norm_num [appProcess, layoutsMain]
  · norm_num

/-- C5, amended.  Only `main.py` clamps the submitted dpi
(`dpi = min(int(dpi), 300)`), so its zoom never exceeds 300/72; `app.py`
and `pdf_optimized_printer.py` pass the submitted dpi straight through to
the rasterizer (`zoom = dpi / 72`), with no upper bound. -/
theorem c5_zoom_clamp :
    (∀ (imgs : List (ℚ × ℚ)) (mode : TilingMode) (dpi : ℤ)
      (out : RunOutput),
      mainProcess imgs mode dpi = some out → out.zoom ≤ 300 / 72) ∧
    (∀ (imgs : List (ℚ × ℚ)) (s dpi : ℤ) (out : RunOutput),
      appProcess imgs s dpi = some out → out.zoom = (dpi : ℚ) / 72) ∧
    (∀ (imgs : List (ℚ × ℚ)) (mode : TilingMode) (dpi : ℤ)
      (out : RunOutput),
      printerProcess imgs mode dpi = some out →
      out.zoom = (dpi : ℚ) / 72) := by
  refine ⟨?_, ?_, ?_⟩
  · intro imgs mode dpi out H
    obtain ⟨w, h, rest, -, -, -, hz, -, -⟩ := mainProcess_some H
    rw [hz]
    have hle : ((min dpi 300 : ℤ) : ℚ) ≤ 300 := by
      exact_mod_cast min_le_right dpi 300
    linarith
  · intro imgs s dpi out H
    obtain ⟨w, h, rest, -, -, -, hz, -, -⟩ := appProcess_some H
    exact hz
  · intro imgs mode dpi out H
    obtain ⟨w, h, rest, cr, -, -, -, -, hz, -, -⟩ := printerProcess_some H
    exact hz

/-- Run output of a concrete `main.py` run at dpi 200, used by the C5
witness. -/
def c5out : RunOutput :=
  (mainProcess [((4 : ℚ), 3)] (.explicit 4) 200).getD
    ⟨0, 0, ⟨0, 0, 0, 0, 0, 0, 0⟩, []⟩

/-- C5, witness: the clamp bound applied to a completed concrete run. -/
theorem c5_zoom_clamp_witness :
    mainProcess [((4 : ℚ), 3)] (.explicit 4) 200 = some c5out ∧
    c5out.zoom ≤ 300 / 72 := by
  have hsome : mainProcess [((4 : ℚ), 3)] (.explicit 4) 200 = some c5out := by
    norm_num [c5out, mainProcess, sppOfMain, layoutsMain]
  exact ⟨hsome, c5_zoom_clamp.1 _ _ _ _ hsome⟩

/-- The C6 scenario source: ten rasterized 1600×1200 slide images. -/
def tenSlides : List (ℚ × ℚ) :=
  [(1600, 1200), (1600, 1200), (1600, 1200), (1600, 1200), (1600, 1200),
   (1600, 1200), (1600, 1200), (1600, 1200), (1600, 1200), (1600, 1200)]

/-- C6, counterexample.  In the cited printer variant the same 10-page
run with explicit `tiling_mode = 4` uses gap 10 (not 12), giving
`cellWidth = (612-72-10)/2 = 265` and `cellHeight = (792-72-10)/2 = 355`
instead of the claimed 264 and 354. -/
theorem c6_counterexample :
    (printerProcess tenSlides (.explicit 4) 200).map
      (fun o => (o.geom.gap, o.geom.cw, o.geom.ch)) =
      some (10, 265, 355) ∧
    ¬ (((10 : ℚ), (265 : ℚ), (355 : ℚ)) =
        ((12 : ℚ), (264 : ℚ), (354 : ℚ))) := by
  constructor
  · norm_num [tenSlides, printerProcess, sppOfPrinter, layoutsPrinter,
      geomOf, gapPrinter, pageW, pageH, margin]
  · norm_num [Prod.ext_iff]

/-- C6, amended.  For 10 source pages with explicit `tiling_mode = 4`,
all variants use a 2×2 grid with margin 36 and produce 3 output pages of
4, 4 and 2 tiles; `app.py`/`main.py` use gap 12 with
`cellWidth = (612-72-12)/2 = 264`, `cellHeight = (792-72-12)/2 = 354`,
while `pdf_optimized_printer.py` uses gap 10 with `cellWidth = 265`,
`cellHeight = 355`. -/
theorem c6_scenario :
    (mainProcess tenSlides (.explicit 4) 200).map
      (fun o => (o.geom.cols, o.geom.rows, o.geom.gap, o.geom.cw,
        o.geom.ch)) = some (2, 2, (12 : ℚ), 264, 354) ∧
    (mainProcess tenSlides (.explicit 4) 200).map
      (fun o => o.pages.map List.length) = some [4, 4, 2] ∧
    (appProcess tenSlides 4 200).map
      (fun o => (o.geom.cols, o.geom.rows, o.geom.gap, o.geom.cw,
        o.geom.ch)) = some (2, 2, (12 : ℚ), 264, 354) ∧
    (appProcess tenSlides 4 200).map
      (fun o => o.pages.map List.length) = some [4, 4, 2] ∧
    (printerProcess tenSlides (.explicit 4) 200).map
      (fun o => (o.geom.cols, o.geom.rows, o.geom.gap, o.geom.cw,
        o.geom.ch)) = some (2, 2, (10 : ℚ), 265, 355) ∧
    (printerProcess tenSlides (.explicit 4) 200).map
      (fun o => o.pages.map List.length) = some [4, 4, 2] ∧
    margin = 36 := by
  refine ⟨?_, ?_, ?_, ?_, ?_, ?_, rfl⟩
  · norm_num [tenSlides, mainProcess, sppOfMain, layoutsMain, geomOf,
      gapMain, pageW, pageH, margin]
  · decide
  · norm_num [tenSlides, appProcess, layoutsMain, geomOf,
      gapMain, pageW, pageH, margin]
  · decide
  · norm_num [tenSlides, printerProcess, sppOfPrinter, layoutsPrinter,
      geomOf, gapPrinter, pageW, pageH, margin]
  · decide

/-- C2, counterexample.  The composer's group size is the raw requested
count, not `columns * rows`: with the unsupported count 5 (grid defaults
to 2×2, so `columns * rows = 4`) and 5 source pages, `main.py` emits a
single page holding 5 tiles, while the claim predicts
`ceil(5 / 4) = 2` pages with at most 4 tiles each. -/
theorem c2_counterexample :
    (mainProcess [((1600 : ℚ), 1200), (1600, 1200), (1600, 1200),
        (1600, 1200), (1600, 1200)] (.explicit 5) 200).map
      (fun o => o.pages.map List.length) = some [5] ∧
    (layoutsMain 5).getD (2, 2) = (2, 2) ∧
    (5 + 2 * 2 - 1) / (2 * 2) = 2 ∧
    ([5] : List ℕ).length ≠ 2 := by
  exact ⟨by decide, by decide, by decide, by decide⟩

/-- C2, amended.  The composer consumes source images in order in groups
of the REQUESTED `slides_per_page`; whenever that count is a supported
table key (so that it equals `columns * rows`), the number of output
pages is `ceil(total_pages / (columns*rows))` and every page except
possibly the last holds exactly `columns * rows` tiles.  (For unsupported
counts the group size differs from the 2×2 default grid's
`columns * rows = 4`, see the counterexample.) -/
theorem c2_grouped_composition :
    (∀ (s : ℤ) (cols rows : ℕ) (w h : ℚ) (rest : List (ℚ × ℚ))
      (dpi : ℤ) (out : RunOutput),
      layoutsMain s = some (cols, rows) →
      mainProcess ((w, h) :: rest) (.explicit s) dpi = some out →
      out.pages.length =
        (rest.length + 1 + cols * rows - 1) / (cols * rows) ∧
      (∀ i (hi : i + 1 < out.pages.length),
        (out.pages.get ⟨i, Nat.lt_of_succ_lt hi⟩).length = cols * rows) ∧
      out.pages.flatten.map (fun t => t.src) =
        List.range (rest.length + 1)) ∧
    (∀ (s : ℤ) (cols rows : ℕ) (w h : ℚ) (rest : List (ℚ × ℚ))
      (dpi : ℤ) (out : RunOutput),
      layoutsMain s = some (cols, rows) →
      appProcess ((w, h) :: rest) s dpi = some out →
      out.pages.length =
        (rest.length + 1 + cols * rows - 1) / (cols * rows) ∧
      (∀ i (hi : i + 1 < out.pages.length),
        (out.pages.get ⟨i, Nat.lt_of_succ_lt hi⟩).length = cols * rows) ∧
      out.pages.flatten.map (fun t => t.src) =
        List.range (rest.length + 1)) := by
  constructor
  · intro s cols rows w h rest dpi out hsup H
    obtain ⟨w', h', rest', heq, hpos, hspp, -, -, hpages⟩ :=
      mainProcess_some H
    cases heq
    have hfacts := layoutsMain_spp hsup
    have hsppval : out.spp = cols * rows := by rw [hspp]; exact hfacts.1
    have hspp1 : 1 ≤ out.spp := by
      rw [hsppval]
      simpa using Nat.mul_le_mul hfacts.2.1 hfacts.2.2.1
    refine ⟨?_, ?_, ?_⟩
    · rw [hpages, composeAll_length out.geom out.spp _ hspp1, hsppval]
    · intro i hi
      revert hi
      rw [hpages]
      intro hi
      have hfull :=
        composeAll_full_page out.geom out.spp (rest.length + 1) hspp1 i hi
      rw [← hsppval]
      exact hfull
    · rw [hpages, composeAll_srcs out.geom out.spp _ hspp1]
  · intro s cols rows w h rest dpi out hsup H
    obtain ⟨w', h', rest', heq, hpos, hspp, -, -, hpages⟩ :=
      appProcess_some H
    cases heq
    have hfacts := layoutsMain_spp hsup
    have hsppval : out.spp = cols * rows := by rw [hspp]; exact hfacts.1
    have hspp1 : 1 ≤ out.spp := by
      rw [hsppval]
      simpa using Nat.mul_le_mul hfacts.2.1 hfacts.2.2.1
    refine ⟨?_, ?_, ?_⟩
    · rw [hpages, composeAll_length out.geom out.spp _ hspp1, hsppval]
    · intro i hi
      revert hi
      rw [hpages]
      intro hi
      have hfull :=
        composeAll_full_page out.geom out.spp (rest.length + 1) hspp1 i hi
      rw [← hsppval]
      exact hfull
    · rw [hpages, composeAll_srcs out.geom out.spp _ hspp1]

/-- Run output of a concrete one-page explicit-4 `main.py` run, used by
the C2 witness. -/
def c2out : RunOutput :=
  (mainProcess [((4 : ℚ), 3)] (.explicit 4) 200).getD
    ⟨0, 0, ⟨0, 0, 0, 0, 0, 0, 0⟩, []⟩

/-- C2, witness: the amended theorem applied to a completed concrete run
(1 source page, supported count 4). -/
theorem c2_grouped_composition_witness :
    layoutsMain 4 = some (2, 2) ∧
    mainProcess [((4 : ℚ), 3)] (.explicit 4) 200 = some c2out ∧
    (c2out.pages.length = (0 + 1 + 2 * 2 - 1) / (2 * 2) ∧
     (∀ i (hi : i + 1 < c2out.pages.length),
       (c2out.pages.get ⟨i, Nat.lt_of_succ_lt hi⟩).length = 2 * 2) ∧
     c2out.pages.flatten.map (fun t => t.src) = List.range (0 + 1)) := by
  have hsome : mainProcess [((4 : ℚ), 3)] (.explicit 4) 200 = some c2out := by
    norm_num [c2out, mainProcess, sppOfMain, layoutsMain]
  exact ⟨by decide, hsome,
    c2_grouped_composition.1 4 2 2 4 3 [] 200 c2out (by decide) hsome⟩

/-- C8, confirmed.  For any grid shape and gap, and any first image with
positive pixel dimensions, the uniformly scaled tile fits its cell:
`scaledWidth ≤ cellWidth` and `scaledHeight ≤ cellHeight`. -/
theorem c8_no_overflow :
    ∀ (cols rows : ℕ) (gap w h : ℚ), 0 < w → 0 < h →
      (geomOf cols rows gap w h).sw ≤ (geomOf cols rows gap w h).cw ∧
      (geomOf cols rows gap w h).sh ≤ (geomOf cols rows gap w h).ch :=
  fun cols rows gap w h hw hh => geomOf_scaled_le cols rows gap w h hw hh

/-- C8, witness: the no-overflow bound at the 2×2 grid with gap 12 and a
1600×1200 first image. -/
theorem c8_no_overflow_witness :
    (0 : ℚ) < 1600 ∧ (0 : ℚ) < 1200 ∧
    ((geomOf 2 2 gapMain 1600 1200).sw ≤ (geomOf 2 2 gapMain 1600 1200).cw ∧
     (geomOf 2 2 gapMain 1600 1200).sh ≤
       (geomOf 2 2 gapMain 1600 1200).ch) :=
  ⟨by norm_num, by norm_num,
    c8_no_overflow 2 2 gapMain 1600 1200 (by norm_num) (by norm_num)⟩

/-- C7, confirmed.  Every tile of a run is drawn at the same
`(scaledWidth, scaledHeight)`, which is computed once from the first
image's dimensions only (`scale = min(cw/w, ch/h)` over the run's cell
size); replacing every later source image by any other same-length
sequence leaves the entire output — geometry included — unchanged, so
later images are never individually re-scaled and the grid never changes
mid-run.  Holds for both `main.py` and `app.py`. -/
theorem c7_uniform_scale :
    (∀ (w h : ℚ) (rest : List (ℚ × ℚ)) (mode : TilingMode) (dpi : ℤ)
      (out : RunOutput),
      mainProcess ((w, h) :: rest) mode dpi = some out →
      (∀ t ∈ out.pages.flatten, t.w = out.geom.sw ∧ t.h = out.geom.sh) ∧
      out.geom.sw = w * min (out.geom.cw / w) (out.geom.ch / h) ∧
      out.geom.sh = h * min (out.geom.cw / w) (out.geom.ch / h) ∧
      (∀ rest2 : List (ℚ × ℚ), rest2.length = rest.length →
        mainProcess ((w, h) :: rest2) mode dpi = some out)) ∧
    (∀ (w h : ℚ) (rest : List (ℚ × ℚ)) (s dpi : ℤ) (out : RunOutput),
      appProcess ((w, h) :: rest) s dpi = some out →
      (∀ t ∈ out.pages.flatten, t.w = out.geom.sw ∧ t.h = out.geom.sh) ∧
      out.geom.sw = w * min (out.geom.cw / w) (out.geom.ch / h) ∧
      out.geom.sh = h * min (out.geom.cw / w) (out.geom.ch / h) ∧
      (∀ rest2 : List (ℚ × ℚ), rest2.length = rest.length →
        appProcess ((w, h) :: rest2) s dpi = some out)) := by
  constructor
  · intro w h rest mode dpi out H
    obtain ⟨w', h', rest', heq, hpos, hspp, -, hgeom, hpages⟩ :=
      mainProcess_some H
    cases heq
    have hspp1 : 1 ≤ out.spp := by rw [hspp]; omega
    refine ⟨?_, ?_, ?_, ?_⟩
    · intro t ht
      rw [hpages] at ht
      obtain ⟨p, j, src, -, rfl⟩ := composeAll_mem _ _ _ hspp1 t ht
      exact ⟨placeTile_w _ _ _ _, placeTile_h _ _ _ _⟩
    · rw [hgeom]
      exact geomOf_sw _ _ _ _ _
    · rw [hgeom]
      exact geomOf_sh _ _ _ _ _
    · intro rest2 hlen
      rw [← H]
      simp only [mainProcess]
      rw [hlen]
  · intro w h rest s dpi out H
    obtain ⟨w', h', rest', heq, hpos, hspp, -, hgeom, hpages⟩ :=
      appProcess_some H
    cases heq
    have hspp1 : 1 ≤ out.spp := by rw [hspp]; omega
    refine ⟨?_, ?_, ?_, ?_⟩
    · intro t ht
      rw [hpages] at ht
      obtain ⟨p, j, src, -, rfl⟩ := composeAll_mem _ _ _ hspp1 t ht
      exact ⟨placeTile_w _ _ _ _, placeTile_h _ _ _ _⟩
    · rw [hgeom]
      exact geomOf_sw _ _ _ _ _
    · rw [hgeom]
      exact geomOf_sh _ _ _ _ _
    · intro rest2 hlen
      rw [← H]
      simp only [appProcess]
      rw [hlen]

/-- Run output of a concrete two-page `main.py` run with a heterogeneous
tail image, used by the C7 witness. -/
def c7out : RunOutput :=
  (mainProcess [((4 : ℚ), 3), (100, 7)] (.explicit 4) 200).getD
    ⟨0, 0, ⟨0, 0, 0, 0, 0, 0, 0⟩, []⟩

/-- C7, witness: the invariant applied to a concrete run whose second
image has a completely different aspect ratio from the first, including
the tail-replacement instance. -/
theorem c7_uniform_scale_witness :
    mainProcess [((4 : ℚ), 3), (100, 7)] (.explicit 4) 200 = some c7out ∧
    (∀ t ∈ c7out.pages.flatten,
      t.w = c7out.geom.sw ∧ t.h = c7out.geom.sh) ∧
    ([((9 : ℚ), 9)] : List (ℚ × ℚ)).length = [((100 : ℚ), 7)].length ∧
    mainProcess [((4 : ℚ), 3), (9, 9)] (.explicit 4) 200 = some c7out := by
  have hsome :
      mainProcess [((4 : ℚ), 3), (100, 7)] (.explicit 4) 200 =
        some c7out := by
    norm_num [c7out, mainProcess, sppOfMain, layoutsMain]
  have hmain := c7_uniform_scale.1 4 3 [(100, 7)] (.explicit 4) 200
    c7out hsome
  exact ⟨hsome, hmain.1, by decide,
    hmain.2.2.2 [(9, 9)] (by decide)⟩

/-- C9, confirmed.  The `j`-th tile (0-based) on output page `p` is placed
at column `j mod columns` and row `j div columns`, at
`x = margin + col*(cellWidth+gap) + (cellWidth-scaledWidth)/2` and
`y = H - margin - (row+1)*cellHeight - row*gap + (cellHeight-scaledHeight)/2`
in bottom-left page coordinates, drawing source image `p*spp + j`, with
the border rectangle at exactly the same scaled bounds.  Holds for both
`main.py` and `app.py`. -/
theorem c9_tile_placement :
    (∀ (imgs : List (ℚ × ℚ)) (mode : TilingMode) (dpi : ℤ)
      (out : RunOutput), mainProcess imgs mode dpi = some out →
      ∀ (p j : ℕ) (hp : p < out.pages.length)
        (hj : j < (out.pages.get ⟨p, hp⟩).length),
        (out.pages.get ⟨p, hp⟩).get ⟨j, hj⟩ =
          { page := p, slot := j, src := p * out.spp + j,
            x := margin + ((j % out.geom.cols : ℕ) : ℚ) *
                (out.geom.cw + out.geom.gap) +
              (out.geom.cw - out.geom.sw) / 2,
            y := pageH - margin -
                (((j / out.geom.cols : ℕ) : ℚ) + 1) * out.geom.ch -
                ((j / out.geom.cols : ℕ) : ℚ) * out.geom.gap +
              (out.geom.ch - out.geom.sh) / 2,
            w := out.geom.sw, h := out.geom.sh,
            borderX := margin + ((j % out.geom.cols : ℕ) : ℚ) *
                (out.geom.cw + out.geom.gap) +
              (out.geom.cw - out.geom.sw) / 2,
            borderY := pageH - margin -
                (((j / out.geom.cols : ℕ) : ℚ) + 1) * out.geom.ch -
                ((j / out.geom.cols : ℕ) : ℚ) * out.geom.gap +
              (out.geom.ch - out.geom.sh) / 2,
            borderW := out.geom.sw, borderH := out.geom.sh }) ∧
    (∀ (imgs : List (ℚ × ℚ)) (s dpi : ℤ)
      (out : RunOutput), appProcess imgs s dpi = some out →
      ∀ (p j : ℕ) (hp : p < out.pages.length)
        (hj : j < (out.pages.get ⟨p, hp⟩).length),
        (out.pages.get ⟨p, hp⟩).get ⟨j, hj⟩ =
          { page := p, slot := j, src := p * out.spp + j,
            x := margin + ((j % out.geom.cols : ℕ) : ℚ) *
                (out.geom.cw + out.geom.gap) +
              (out.geom.cw - out.geom.sw) / 2,
            y := pageH - margin -
                (((j / out.geom.cols : ℕ) : ℚ) + 1) * out.geom.ch -
                ((j / out.geom.cols : ℕ) : ℚ) * out.geom.gap +
              (out.geom.ch - out.geom.sh) / 2,
            w := out.geom.sw, h := out.geom.sh,
            borderX := margin + ((j % out.geom.cols : ℕ) : ℚ) *
                (out.geom.cw + out.geom.gap) +
              (out.geom.cw - out.geom.sw) / 2,
            borderY := pageH - margin -
                (((j / out.geom.cols : ℕ) : ℚ) + 1) * out.geom.ch -
                ((j / out.geom.cols : ℕ) : ℚ) * out.geom.gap +
              (out.geom.ch - out.geom.sh) / 2,
            borderW := out.geom.sw, borderH := out.geom.sh }) := by
  constructor
  · intro imgs mode dpi out H p j hp hj
    obtain ⟨w, h, rest, -, hpos, hspp, -, -, hpages⟩ := mainProcess_some H
    have hspp1 : 1 ≤ out.spp := by rw [hspp]; omega
    revert hj
    have hpage : out.pages.get ⟨p, hp⟩ =
        pageTiles out.geom p (p * out.spp)
          (min out.spp (rest.length + 1 - p * out.spp)) := by
      rw [List.get_of_eq hpages ⟨p, hp⟩]
      exact composeAll_get out.geom out.spp (rest.length + 1) hspp1 p _
    rw [hpage]
    intro hj
    rw [pageTiles_get]
    rfl
  · intro imgs s dpi out H p j hp hj
    obtain ⟨w, h, rest, -, hpos, hspp, -, -, hpages⟩ := appProcess_some H
    have hspp1 : 1 ≤ out.spp := by rw [hspp]; omega
    revert hj
    have hpage : out.pages.get ⟨p, hp⟩ =
        pageTiles out.geom p (p * out.spp)
          (min out.spp (rest.length + 1 - p * out.spp)) := by
      rw [List.get_of_eq hpages ⟨p, hp⟩]
      exact composeAll_get out.geom out.spp (rest.length + 1) hspp1 p _
    rw [hpage]
    intro hj
    rw [pageTiles_get]
    rfl

/-- Run output of a concrete two-tile `main.py` run, used by the C9
witness. -/
def c9out : RunOutput :=
  (mainProcess [((4 : ℚ), 3), (4, 3)] (.explicit 2) 200).getD
    ⟨0, 0, ⟨0, 0, 0, 0, 0, 0, 0⟩, []⟩

/-- C9, witness: the placement formula applied to the second tile
(slot 1) of the first output page of a completed concrete run. -/
theorem c9_tile_placement_witness :
    mainProcess [((4 : ℚ), 3), (4, 3)] (.explicit 2) 200 = some c9out ∧
    (c9out.pages.get ⟨0, by decide⟩).get ⟨1, by decide⟩ =
      { page := 0, slot := 1, src := 0 * c9out.spp + 1,
        x := margin + ((1 % c9out.geom.cols : ℕ) : ℚ) *
            (c9out.geom.cw + c9out.geom.gap) +
          (c9out.geom.cw - c9out.geom.sw) / 2,
        y := pageH - margin -
            (((1 / c9out.geom.cols : ℕ) : ℚ) + 1) * c9out.geom.ch -
            ((1 / c9out.geom.cols : ℕ) : ℚ) * c9out.geom.gap +
          (c9out.geom.ch - c9out.geom.sh) / 2,
        w := c9out.geom.sw, h := c9out.geom.sh,
        borderX := margin + ((1 % c9out.geom.cols : ℕ) : ℚ) *
            (c9out.geom.cw + c9out.geom.gap) +
          (c9out.geom.cw - c9out.geom.sw) / 2,
        borderY := pageH - margin -
            (((1 / c9out.geom.cols : ℕ) : ℚ) + 1) * c9out.geom.ch -
            ((1 / c9out.geom.cols : ℕ) : ℚ) * c9out.geom.gap +
          (c9out.geom.ch - c9out.geom.sh) / 2,
        borderW := c9out.geom.sw, borderH := c9out.geom.sh } := by
  have hsome :
      mainProcess [((4 : ℚ), 3), (4, 3)] (.explicit 2) 200 = some c9out := by
    norm_num [c9out, mainProcess, sppOfMain, layoutsMain]
  exact ⟨hsome,
    c9_tile_placement.1 [((4 : ℚ), 3), (4, 3)] (.explicit 2) 200 c9out
      hsome 0 1 (by decide) (by decide)⟩

/-- Every tile composed on a fitting grid whose group size equals
`cols * rows` stays inside the page's margin box. -/
theorem composeAll_in_margins (cols rows : ℕ) (gap w h : ℚ) (n : ℕ)
    (hc : 1 ≤ cols) (hr : 1 ≤ rows) (hgap : 0 ≤ gap)
    (hW : 0 ≤ pageW - 2 * margin - ((cols : ℚ) - 1) * gap)
    (hH : 0 ≤ pageH - 2 * margin - ((rows : ℚ) - 1) * gap)
    (hw : 0 < w) (hh : 0 < h) :
    ∀ t ∈ (composeAll (geomOf cols rows gap w h) (cols * rows) n).flatten,
      margin ≤ t.x ∧ t.x + t.w ≤ pageW - margin ∧
      margin ≤ t.y ∧ t.y + t.h ≤ pageH - margin ∧
      t.borderX = t.x ∧ t.borderY = t.y ∧
      t.borderW = t.w ∧ t.borderH = t.h := by
  intro t ht
  have hspp1 : 1 ≤ cols * rows := by simpa using Nat.mul_le_mul hc hr
  obtain ⟨p, j, src, hj, rfl⟩ := composeAll_mem _ _ _ hspp1 t ht
  have hb := placeTile_in_margins cols rows gap w h p j src hc hr hgap
    hW hH hw hh hj
  exact ⟨hb.1, hb.2.1, hb.2.2.1, hb.2.2.2, rfl, rfl, rfl, rfl⟩

/-- C10, confirmed.  In every run whose tile count is a supported table
key or auto (auto always resolves to a supported count), every placed
tile — image and border alike — lies entirely inside the page's margin
box on every output page.  For the printer variant no supportedness
hypothesis is needed: an unsupported count never completes at all. -/
theorem c10_margin_box :
    (∀ (w h : ℚ) (rest : List (ℚ × ℚ)) (mode : TilingMode) (dpi : ℤ)
      (out : RunOutput),
      0 < w → 0 < h →
      (mode = TilingMode.auto ∨
        ∃ s cr, mode = TilingMode.explicit s ∧ layoutsMain s = some cr) →
      mainProcess ((w, h) :: rest) mode dpi = some out →
      ∀ t ∈ out.pages.flatten,
        margin ≤ t.x ∧ t.x + t.w ≤ pageW - margin ∧
        margin ≤ t.y ∧ t.y + t.h ≤ pageH - margin ∧
        t.borderX = t.x ∧ t.borderY = t.y ∧
        t.borderW = t.w ∧ t.borderH = t.h) ∧
    (∀ (w h : ℚ) (rest : List (ℚ × ℚ)) (s : ℤ) (cr : ℕ × ℕ) (dpi : ℤ)
      (out : RunOutput),
      0 < w → 0 < h → layoutsMain s = some cr →
      appProcess ((w, h) :: rest) s dpi = some out →
      ∀ t ∈ out.pages.flatten,
        margin ≤ t.x ∧ t.x + t.w ≤ pageW - margin ∧
        margin ≤ t.y ∧ t.y + t.h ≤ pageH - margin ∧
        t.borderX = t.x ∧ t.borderY = t.y ∧
        t.borderW = t.w ∧ t.borderH = t.h) ∧
    (∀ (w h : ℚ) (rest : List (ℚ × ℚ)) (mode : TilingMode) (dpi : ℤ)
      (out : RunOutput),
      0 < w → 0 < h →
      printerProcess ((w, h) :: rest) mode dpi = some out →
      ∀ t ∈ out.pages.flatten,
        margin ≤ t.x ∧ t.x + t.w ≤ pageW - margin ∧
        margin ≤ t.y ∧ t.y + t.h ≤ pageH - margin ∧
        t.borderX = t.x ∧ t.borderY = t.y ∧
        t.borderW = t.w ∧ t.borderH = t.h) := by
  refine ⟨?_, ?_, ?_⟩
  · intro w h rest mode dpi out hw hh hsupp H
    obtain ⟨w', h', rest', heq, hpos, hspp, -, hgeom, hpages⟩ :=
      mainProcess_some H
    cases heq
    have hcrEx : ∃ cr, layoutsMain (sppOfMain mode w h) = some cr := by
      rcases hsupp with hauto | ⟨s, cr, hm, hs⟩
      · subst hauto
        by_cases hwh : w > h
        · exact ⟨(1, 2), by simp [sppOfMain, autoSppMain, hwh, layoutsMain]⟩
        · exact ⟨(2, 2), by simp [sppOfMain, autoSppMain, hwh, layoutsMain]⟩
      · subst hm
        exact ⟨cr, hs⟩
    obtain ⟨cr, hcr⟩ := hcrEx
    have hfacts := layoutsMain_spp hcr
    have hfits := layoutsMain_fits hcr
    rw [hcr, Option.getD_some] at hgeom
    have hsppval : out.spp = cr.1 * cr.2 := by rw [hspp]; exact hfacts.1
    intro t ht
    rw [hpages, hgeom, hsppval] at ht
    exact composeAll_in_margins cr.1 cr.2 gapMain w h _ hfacts.2.1
      hfacts.2.2.1 (by norm_num [gapMain]) hfits.1 hfits.2 hw hh t ht
  · intro w h rest s cr dpi out hw hh hcr H
    obtain ⟨w', h', rest', heq, hpos, hspp, -, hgeom, hpages⟩ :=
      appProcess_some H
    cases heq
    have hfacts := layoutsMain_spp hcr
    have hfits := layoutsMain_fits hcr
    rw [hcr, Option.getD_some] at hgeom
    have hsppval : out.spp = cr.1 * cr.2 := by rw [hspp]; exact hfacts.1
    intro t ht
    rw [hpages, hgeom, hsppval] at ht
    exact composeAll_in_margins cr.1 cr.2 gapMain w h _ hfacts.2.1
      hfacts.2.2.1 (by norm_num [gapMain]) hfits.1 hfits.2 hw hh t ht
  · intro w h rest mode dpi out hw hh H
    obtain ⟨w', h', rest', cr, heq, hpos, hcr, hspp, -, hgeom, hpages⟩ :=
      printerProcess_some H
    cases heq
    have hfacts := layoutsPrinter_spp hcr
    have hfits := layoutsPrinter_fits hcr
    have hsppval : out.spp = cr.1 * cr.2 := by rw [hspp]; exact hfacts.1
    intro t ht
    rw [hpages, hgeom, hsppval] at ht
    exact composeAll_in_margins cr.1 cr.2 gapPrinter w h _ hfacts.2.1
      hfacts.2.2.1 (by norm_num [gapPrinter]) hfits.1 hfits.2 hw hh t ht

/-- Run output of a concrete one-page explicit-4 `main.py` run, used by
the C10 witness. -/
def c10out : RunOutput :=
  (mainProcess [((4 : ℚ), 3)] (.explicit 4) 200).getD
    ⟨0, 0, ⟨0, 0, 0, 0, 0, 0, 0⟩, []⟩

/-- C10, witness: the margin-box invariant applied to a completed
concrete run with a supported explicit count. -/
theorem c10_margin_box_witness :
    ((0 : ℚ) < 4 ∧ (0 : ℚ) < 3 ∧ layoutsMain 4 = some (2, 2) ∧
      mainProcess [((4 : ℚ), 3)] (.explicit 4) 200 = some c10out) ∧
    (∀ t ∈ c10out.pages.flatten,
      margin ≤ t.x ∧ t.x + t.w ≤ pageW - margin ∧
      margin ≤ t.y ∧ t.y + t.h ≤ pageH - margin ∧
      t.borderX = t.x ∧ t.borderY = t.y ∧
      t.borderW = t.w ∧ t.borderH = t.h) := by
  have hsome : mainProcess [((4 : ℚ), 3)] (.explicit 4) 200 =
      some c10out := by
    norm_num [c10out, mainProcess, sppOfMain, layoutsMain]
  refine ⟨⟨by norm_num, by norm_num, by decide, hsome⟩, ?_⟩
  exact c10_margin_box.1 4 3 [] (.explicit 4) 200 c10out (by norm_num)
    (by norm_num) (Or.inr ⟨4, (2, 2), rfl, by decide⟩) hsome
